import Mathlib

/-!
Shallow embedding of the GOG Galaxy itch.io integration plugin
(src/itch.py) and verification of the specification's claims about it.

The embedding follows the source:
* Python dicts that are mutated by key assignment are modelled as
  association lists with a replace-or-append insert (`dictInsert`).
* The SQL query of `get_owned_games` (two LEFT JOINs with a WHERE
  filter) is modelled relationally over an explicit butler.db state.
* Fallible code (uncaught `KeyError`, `json.loads` errors, a failing
  `sqlite3.connect`) is modelled with `Except` / an explicit error
  component, keeping the state mutations that happened before the
  exception was raised.
* `asyncio.create_task` on the plugin's single-threaded event loop is
  modelled by appending the task name to a `pending` queue of created
  but not-yet-started coroutines: the coroutine body (which is what
  sets the `__running_task` guard) only runs once the event loop next
  gets control, after `tick` has returned.
-/

set_option autoImplicit false

namespace ItchSpec

universe u v

/-! ## Python dict as an association list -/

/-- Python dict assignment `m[k] = v`: replace the (unique) binding of
`k` if present, else append a new binding at the end. -/
def dictInsert {α : Type u} {β : Type v} [DecidableEq α] :
    List (α × β) → α → β → List (α × β)
  | [], k, v => [(k, v)]
  | p :: rest, k, v =>
      if p.1 = k then (k, v) :: rest else p :: dictInsert rest k v

/-- Python dict lookup `m[k]` (as an option). -/
def dictFind? {α : Type u} {β : Type v} [DecidableEq α] :
    List (α × β) → α → Option β
  | [], _ => none
  | p :: rest, k => if p.1 = k then some p.2 else dictFind? rest k

/-- How many bindings of key `k` an association list holds. -/
def keyCount {α : Type u} {β : Type v} [DecidableEq α]
    (m : List (α × β)) (k : α) : Nat :=
  m.countP (fun p => decide (p.1 = k))

/-! ## Galaxy API value types used by the plugin -/

inductive LicenseType where
  | FreeToPlay
  | SinglePurchase
deriving DecidableEq

structure LicenseInfo where
  license_type : LicenseType
deriving DecidableEq

structure Game where
  game_id : Int
  game_title : String
  dlcs : Option (List Unit)
  license_info : LicenseInfo
deriving DecidableEq

inductive LocalGameState where
  | Installed
deriving DecidableEq

structure ItchLocalGame where
  game_id : Int
  path : String
  local_game_state : LocalGameState
deriving DecidableEq

structure GameTime where
  game_id : String
  time_played : Option Nat
  last_played_time : Option Nat
deriving DecidableEq

/-! ## The ownership query (`get_owned_games`, src/itch.py lines 43-51)

The query
  SELECT games.* FROM games
  LEFT JOIN download_keys dk ON games.id = dk.game_id
  LEFT JOIN collection_games cg ON games.id = cg.game_id
  WHERE (cg.collection_id IS NOT NULL AND games.min_price = 0)
     OR (dk.id IS NOT NULL)
is modelled relationally: each game is paired with every matching
download key (or a single NULL when none matches) and every matching
collection membership (or a single NULL), and the WHERE clause filters
those combinations.  Only the game columns are projected. -/

/-- The columns of a `games` row that the plugin reads:
`row[0]` (id), `row[2]` (title), `row[10]` (min_price),
`row[11]` (can_be_bought, an integer flag). -/
structure GameRow where
  id : Int
  title : String
  min_price : Int
  can_be_bought : Int
deriving DecidableEq

structure DownloadKeyRow where
  id : Int
  game_id : Int
deriving DecidableEq

structure CollectionGameRow where
  collection_id : Int
  game_id : Int
deriving DecidableEq

structure ButlerDb where
  games : List GameRow
  download_keys : List DownloadKeyRow
  collection_games : List CollectionGameRow

/-- LEFT JOIN against a list of matching rows: a single NULL row when
nothing matches, otherwise each match. -/
def leftJoin {α : Type u} (matches_ : List α) : List (Option α) :=
  if matches_.isEmpty then [none] else matches_.map some

/-- All (download-key, collection-membership) combinations the two
LEFT JOINs produce for one game. -/
def joinCombos (db : ButlerDb) (g : GameRow) :
    List (Option DownloadKeyRow × Option CollectionGameRow) :=
  (leftJoin (db.download_keys.filter (fun dk => decide (dk.game_id = g.id)))).flatMap
    (fun dk =>
      (leftJoin (db.collection_games.filter (fun cg => decide (cg.game_id = g.id)))).map
        (fun cg => (dk, cg)))

/-- The WHERE clause:
`(cg.collection_id IS NOT NULL AND games.min_price = 0) OR (dk.id IS NOT NULL)`.
(The joined columns are NULL exactly when the join did not match.) -/
def whereCond (g : GameRow)
    (p : Option DownloadKeyRow × Option CollectionGameRow) : Bool :=
  (p.2.isSome && decide (g.min_price = 0)) || p.1.isSome

/-- Result rows of the ownership query (`games.*` projection; a game
appears once per join combination that satisfies the WHERE clause). -/
def ownedGamesQuery (db : ButlerDb) : List GameRow :=
  db.games.flatMap (fun g =>
    ((joinCombos db g).filter (whereCond g)).map (fun _ => g))

/-- The qualification predicate the spec states for the query: the row
has a non-null download-key association, OR it belongs to some
collection AND its minimum price is exactly zero. -/
def qualifies (db : ButlerDb) (g : GameRow) : Bool :=
  (db.download_keys.any (fun dk => decide (dk.game_id = g.id))) ||
    ((db.collection_games.any (fun cg => decide (cg.game_id = g.id))) &&
      decide (g.min_price = 0))

/-! ## Classification (`get_owned_games` loop, src/itch.py lines 55-71) -/

/-- `license_type = SinglePurchase if can_be_bought and min_price > 0
else FreeToPlay`. -/
def licenseOf (can_be_bought : Bool) (min_price : Int) : LicenseType :=
  if can_be_bought = true ∧ min_price > 0 then
    LicenseType.SinglePurchase
  else
    LicenseType.FreeToPlay

/-- Building one `Game` from a raw row, as the loop body does:
`can_be_bought = True if row[11] == 1 else False`. -/
def mkGame (row : GameRow) : Game :=
  let can_be_bought : Bool := if row.can_be_bought = 1 then true else false
  { game_id := row.id
    game_title := row.title
    dlcs := none
    license_info := { license_type := licenseOf can_be_bought row.min_price } }

/-- The loop `for row in resp: self.__owned_games[id] = Game(...)`,
folded over the in-memory owned-games dict. -/
def buildOwnedGames (m : List (Int × Game)) (rows : List GameRow) :
    List (Int × Game) :=
  rows.foldl (fun acc row => dictInsert acc row.id (mkGame row)) m

/-! ## Installation rows (`get_local_games` / `__exe_from_json`,
src/itch.py lines 107-148)

A cave row's `verdict` column holds a JSON string.  `__exe_from_json`
runs `json.loads` on it and reads `data["candidates"]` and
`data["basePath"]`; an unparseable payload or a missing expected field
raises an uncaught exception (`MalformedRecord` below).  A decoded
verdict has a `basePath` and a `candidates` value that is either JSON
null (`none` here) or a list of candidate objects with a `path`. -/

structure Candidate where
  path : String
deriving DecidableEq

structure VerdictData where
  basePath : String
  candidates : Option (List Candidate)
deriving DecidableEq

/-- A raw verdict JSON string: either it decodes to a `VerdictData`,
or `json.loads` / the field accesses raise. -/
inductive VerdictJson where
  | malformed
  | decoded (d : VerdictData)
deriving DecidableEq

/-- The exception class of a record whose verdict cannot be used:
unparseable JSON or a missing expected field. -/
inductive MalformedRecord where
  | mk
deriving DecidableEq

/-- A row of `SELECT game_id, verdict FROM caves`. -/
structure CaveRow where
  game_id : Int
  verdict : VerdictJson
deriving DecidableEq

/-- `os.path.join(a, b)` (separator-normalised form): an absolute
second component replaces the first, otherwise the components are
concatenated with a single separator. -/
def joinPath (a b : String) : String :=
  if b.data.head? = some '/' then b
  else if a = "" ∨ a.data.getLast? = some '/' then a ++ b
  else a ++ "/" ++ b

/-- `__exe_from_json`:
raise on a malformed payload; return `None` when
`not data["candidates"] or len(data["candidates"]) == 0` (JSON null or
the empty list); otherwise return
`os.path.join(data["basePath"], data["candidates"][0]["path"])`. -/
def exe_from_json : VerdictJson → Except MalformedRecord (Option String)
  | VerdictJson.malformed => Except.error MalformedRecord.mk
  | VerdictJson.decoded d =>
      match d.candidates with
      | none => Except.ok none
      | some [] => Except.ok none
      | some (c :: _) => Except.ok (some (joinPath d.basePath c.path))

/-- The `for game in installed_games` loop of `get_local_games`,
threading the in-memory `__local_games` dict.  A raised
`MalformedRecord` escapes the loop: the function returns the dict as
mutated so far together with the escaped exception (`some e`), and the
remaining rows are not processed.  A row whose executable is `None` or
whose path does not exist on disk (`not exe_path or not
os.path.exists(exe_path)`) is skipped with `continue`. -/
def processCaves (fileExists : String → Bool)
    (m : List (String × ItchLocalGame)) :
    List CaveRow → List (String × ItchLocalGame) × Option MalformedRecord
  | [] => (m, none)
  | row :: rest =>
      match exe_from_json row.verdict with
      | Except.error e => (m, some e)
      | Except.ok none => processCaves fileExists m rest
      | Except.ok (some p) =>
          if p = "" ∨ fileExists p = false then
            processCaves fileExists m rest
          else
            processCaves fileExists
              (dictInsert m (toString row.game_id)
                { game_id := row.game_id
                  path := p
                  local_game_state := LocalGameState.Installed })
              rest

/-! ## Playtime bookkeeping (`launch_game` tail, `_get_time_played`,
`get_game_time`, src/itch.py lines 150-197)

`persistent_cache` is a dict; the playtime keys hold decimal strings
(`str(time_played)`, `str(end)`). -/

def time_played_key (game_id : String) : String :=
  "time" ++ game_id

def last_played_time_key (game_id : String) : String :=
  "last" ++ game_id

/-- `int(self.persistent_cache[key]) if key in self.persistent_cache
else None` (the decimal parse of `int` modelled by `String.toNat?`). -/
def get_time_played (cache : List (String × String)) (game_id : String) :
    Option Nat :=
  (dictFind? cache (time_played_key game_id)).bind String.toNat?

/-- What the playtime bookkeeping at the end of `launch_game` leaves
behind: the updated `persistent_cache` and the `GameTime` passed to
`update_game_time`. -/
structure SessionResult where
  cache : List (String × String)
  reported : GameTime
deriving DecidableEq

/-- The bookkeeping run after the launched process terminates, as a
function of the observed `(start, end)` epoch seconds:
`session_mins_played = int((end - start) / 60)`;
`time_played = (self._get_time_played(game_id) or 0) + session_mins_played`;
report `GameTime(game_id, time_played, end)` and persist
`str(time_played)` under `time<gameId>` and `str(end)` under
`last<gameId>`. -/
def recordSession (cache : List (String × String)) (game_id : String)
    (start endT : Nat) : SessionResult :=
  let session_mins_played := (endT - start) / 60
  let time_played := (get_time_played cache game_id).getD 0 + session_mins_played
  let cache1 := dictInsert cache (time_played_key game_id) (Nat.repr time_played)
  let cache2 := dictInsert cache1 (last_played_time_key game_id) (Nat.repr endT)
  { cache := cache2
    reported :=
      { game_id := game_id
        time_played := some time_played
        last_played_time := some endT } }

/-- `get_game_time` (src/itch.py lines 174-179): it has access to the
persisted state but never reads it, and returns a `GameTime` whose
`time_played` and `last_played_time` are both `None`. -/
def get_game_time (cache : List (String × String)) (game_id : String)
    (context : Option Unit) : GameTime :=
  { game_id := game_id
    time_played := none
    last_played_time := none }

/-! ## The refresh scheduler (`tick`, src/itch.py lines 229-235)

`tick` runs synchronously on the plugin's event loop.  For each task it
evaluates `(not self.__running_task[TASK]) and (now -
float(self.persistent_cache[LAST_CHECK]) > WAIT_TIME)`; Python's `and`
short-circuits, so the cache is only read when the guard is clear, and
a missing last-check key raises an uncaught `KeyError` that aborts the
whole tick.  `self.create_task(...)` only schedules the refresh
coroutine: its body — whose first statement sets
`self.__running_task[TASK] = True` — runs when the event loop next gets
control, after `tick` has returned.  Scheduling is modelled by
appending the task name to `pending`. -/

inductive TaskName where
  | ownedGames
  | localGames
deriving DecidableEq

/-- The `KeyError` raised by `self.persistent_cache[...]` on a missing
key. -/
inductive TickError where
  | keyError
deriving DecidableEq

/-- The error raised inside a refresh when the butler.db store cannot
be opened or queried. -/
inductive DbError where
  | dataStoreUnavailable
deriving DecidableEq

def GET_OWNED_GAMES_WAIT_TIME : Int := 24 * 3600

def GET_LOCAL_GAMES_WAIT_TIME : Int := 1 * 3600

/-- The plugin state the scheduler touches: the two guard booleans of
`__running_task`, the two persisted last-check entries of
`persistent_cache` (absent = `none`), the queue of created but
not-yet-started refresh coroutines, and the in-memory owned-games
dict. -/
structure SchedState where
  runningOwned : Bool
  runningLocal : Bool
  lastCheckOwned : Option Int
  lastCheckLocal : Option Int
  pending : List TaskName
  ownedGames : List (Int × Game)
deriving DecidableEq

/-- The first `if` of `tick` (owned-games task). -/
def tickOwnedStep (now : Int) (s : SchedState) : Except TickError SchedState :=
  if s.runningOwned = true then Except.ok s
  else
    match s.lastCheckOwned with
    | none => Except.error TickError.keyError
    | some t =>
        if now - t > GET_OWNED_GAMES_WAIT_TIME then
          Except.ok { s with pending := s.pending ++ [TaskName.ownedGames] }
        else Except.ok s

/-- The second `if` of `tick` (local-games task). -/
def tickLocalStep (now : Int) (s : SchedState) : Except TickError SchedState :=
  if s.runningLocal = true then Except.ok s
  else
    match s.lastCheckLocal with
    | none => Except.error TickError.keyError
    | some t =>
        if now - t > GET_LOCAL_GAMES_WAIT_TIME then
          Except.ok { s with pending := s.pending ++ [TaskName.localGames] }
        else Except.ok s

/-- `tick`: both `if` statements in order; an uncaught `KeyError` in
the first aborts the tick before the second runs. -/
def tick (now : Int) (s : SchedState) : Except TickError SchedState :=
  match tickOwnedStep now s with
  | Except.error e => Except.error e
  | Except.ok s1 => tickLocalStep now s1

/-- The body of the `get_owned_games` refresh coroutine as a state
transformer.  Its first statement sets the guard; then the butler.db
fetch happens (its outcome is the `fetch` parameter — an exception
there escapes the coroutine with the guard still set and the
last-check entry untouched); on success the owned-games dict is
rebuilt, the last-check entry is stamped to the completion time and
the guard is cleared. -/
def getOwnedGamesRun (fetch : Except DbError (List GameRow)) (now : Int)
    (s : SchedState) : SchedState × Except DbError (List Game) :=
  let s1 := { s with runningOwned := true }
  match fetch with
  | Except.error e => (s1, Except.error e)
  | Except.ok rows =>
      let m := buildOwnedGames s1.ownedGames rows
      ({ s1 with
          ownedGames := m
          lastCheckOwned := some now
          runningOwned := false },
        Except.ok (m.map (fun p => p.2)))

/-- How many refreshes of task `t` a queue holds. -/
def countTask (t : TaskName) (l : List TaskName) : Nat :=
  l.countP (fun x => decide (x = t))

/-! ## Concrete fixtures used in witnesses and counterexamples -/

/-- A verdict with two candidates, `a` then `b`. -/
def verdictAB : VerdictJson :=
  VerdictJson.decoded
    { basePath := "/base", candidates := some [{ path := "a" }, { path := "b" }] }

/-- A filesystem on which only `/base/b` exists. -/
def onlyBExists : String → Bool := fun p => p == "/base/b"

/-- A well-formed verdict whose single candidate is `game.exe`. -/
def verdictGood : VerdictJson :=
  VerdictJson.decoded
    { basePath := "/base", candidates := some [{ path := "game.exe" }] }

/-- A filesystem on which only `/base/game.exe` exists. -/
def goodExeExists : String → Bool := fun p => p == "/base/game.exe"

/-- A scheduler state that is idle with a stale owned-games
last-check and a fresh local-games last-check. -/
def staleOwnedState : SchedState :=
  { runningOwned := false, runningLocal := false,
    lastCheckOwned := some 0, lastCheckLocal := some 1000000,
    pending := [], ownedGames := [] }

/-- A scheduler state in which both refreshes have begun executing
(both guards set). -/
def bothRunningState : SchedState :=
  { runningOwned := true, runningLocal := true,
    lastCheckOwned := some 0, lastCheckLocal := some 0,
    pending := [], ownedGames := [] }

/-- The state of a freshly started process whose persisted cache holds
neither last-check entry. -/
def freshState : SchedState :=
  { runningOwned := false, runningLocal := false,
    lastCheckOwned := none, lastCheckLocal := none,
    pending := [], ownedGames := [] }

/-- An idle state with stale persisted last-check entries whose
local-games guard happens to be set. -/
def idleOwnedState : SchedState :=
  { runningOwned := false, runningLocal := true,
    lastCheckOwned := some 0, lastCheckLocal := some 0,
    pending := [], ownedGames := [] }

/-- A game row that is free and buyable. -/
def freeGameRow : GameRow :=
  { id := 1, title := "g", min_price := 0, can_be_bought := 1 }

/-- A butler.db state in which `freeGameRow` satisfies both ownership
disjuncts: it has a download key and it belongs to a collection while
having minimum price 0. -/
def dbBoth : ButlerDb :=
  { games := [freeGameRow]
    download_keys := [{ id := 10, game_id := 1 }]
    collection_games := [{ collection_id := 20, game_id := 1 }] }

/-! ## Basic dictionary lemmas -/

theorem dictFind?_insert_self {α : Type u} {β : Type v} [DecidableEq α]
    (m : List (α × β)) (k : α) (v : β) :
    dictFind? (dictInsert m k v) k = some v := by
  induction m with
  | nil => simp [dictInsert, dictFind?]
  | cons p rest ih =>
      by_cases h : p.1 = k
      · simp [dictInsert, dictFind?, h]
      · simp [dictInsert, dictFind?, h, ih]

theorem dictFind?_insert_ne {α : Type u} {β : Type v} [DecidableEq α]
    (m : List (α × β)) (k k' : α) (v : β) (hne : k' ≠ k) :
    dictFind? (dictInsert m k v) k' = dictFind? m k' := by
  have hne' : ¬ k = k' := fun h => hne h.symm
  induction m with
  | nil => simp [dictInsert, dictFind?, hne']
  | cons p rest ih =>
      by_cases h : p.1 = k
      · simp [dictInsert, dictFind?, h, hne']
      · by_cases h' : p.1 = k'
        · simp [dictInsert, dictFind?, h, h', hne]
        · simp [dictInsert, dictFind?, h, h', ih]

theorem time_key_ne_last_key (g : String) :
    time_played_key g ≠ last_played_time_key g := by
  intro h
  have h2 : (time_played_key g).data = (last_played_time_key g).data :=
    congrArg String.data h
  simp only [time_played_key, last_played_time_key, String.data_append] at h2
  exact absurd (List.head_eq_of_cons_eq h2) (by decide)

/-! ## Claim C5: license classification -/

/-- C5: for every ownership row, the derived entry's license type is
`SinglePurchase` exactly when `can_be_bought` (the raw flag equals 1)
and `min_price > 0`, and `FreeToPlay` otherwise; in particular a row
with `can_be_bought = 1` and `min_price = 0` is classified
`FreeToPlay` (price dominates the buyability flag). -/
theorem c5_license_classification (row : GameRow) :
    ((mkGame row).license_info.license_type = LicenseType.SinglePurchase ↔
      (row.can_be_bought = 1 ∧ row.min_price > 0)) ∧
    ((mkGame row).license_info.license_type = LicenseType.FreeToPlay ↔
      ¬ (row.can_be_bought = 1 ∧ row.min_price > 0)) ∧
    (row.can_be_bought = 1 → row.min_price = 0 →
      (mkGame row).license_info.license_type = LicenseType.FreeToPlay) := by
  by_cases hb : row.can_be_bought = 1
  · by_cases hp : row.min_price > 0
    · simp only [mkGame, licenseOf, hb]
      simp [hp]
      omega
    · simp [mkGame, licenseOf, hb, hp]
  · simp [mkGame, licenseOf, hb]

/-- Witness for C5: a row that can be bought but has minimum price 0
is classified `FreeToPlay`. -/
theorem c5_license_classification_witness :
    (mkGame { id := 7, title := "g", min_price := 0, can_be_bought := 1
      }).license_info.license_type = LicenseType.FreeToPlay :=
  (c5_license_classification
    { id := 7, title := "g", min_price := 0, can_be_bought := 1 }).2.2 rfl rfl

/-! ## Claim C9: playtime bookkeeping of a completed launch session -/

/-- C9: recording a completed launch session computes
`sessionMinutes = (end - start) / 60` with truncating division (a
session under 60 seconds contributes zero minutes), adds it to the
previously persisted total (defaulting to 0 when no total was
persisted), persists the new total under `time<gameId>` and the end
time under `last<gameId>`, and reports the new total; a 90-second
session adds exactly 1 minute and a 59-second session leaves the
running total unchanged. -/
theorem c9_record_session (cache : List (String × String)) (gid : String)
    (start endT : Nat) (h : start ≤ endT) :
    (recordSession cache gid start endT).reported.time_played =
      some ((get_time_played cache gid).getD 0 + (endT - start) / 60) ∧
    (recordSession cache gid start endT).reported.last_played_time = some endT ∧
    dictFind? (recordSession cache gid start endT).cache (time_played_key gid) =
      some (Nat.repr ((get_time_played cache gid).getD 0 + (endT - start) / 60)) ∧
    dictFind? (recordSession cache gid start endT).cache (last_played_time_key gid) =
      some (Nat.repr endT) ∧
    (endT - start < 60 → (endT - start) / 60 = 0) ∧
    (recordSession cache gid 1000 1090).reported.time_played =
      some ((get_time_played cache gid).getD 0 + 1) ∧
    (recordSession cache gid 1000 1059).reported.time_played =
      some ((get_time_played cache gid).getD 0 + 0) := by
  refine ⟨rfl, rfl, ?_, ?_, ?_, rfl, rfl⟩
  · rw [recordSession]
    rw [dictFind?_insert_ne _ _ _ _ (time_key_ne_last_key gid)]
    exact dictFind?_insert_self _ _ _
  · rw [recordSession]
    exact dictFind?_insert_self _ _ _
  · intro hlt
    exact Nat.div_eq_of_lt hlt

/-- Witness for C9: a concrete 90-second session on a cache holding a
persisted total of 5 minutes. -/
theorem c9_record_session_witness :
    (recordSession [("time7", "5")] "7" 1000 1090).reported.time_played =
      some ((get_time_played [("time7", "5")] "7").getD 0 + (1090 - 1000) / 60) ∧
    (recordSession [("time7", "5")] "7" 1000 1090).reported.last_played_time =
      some 1090 ∧
    dictFind? (recordSession [("time7", "5")] "7" 1000 1090).cache
        (time_played_key "7") =
      some (Nat.repr ((get_time_played [("time7", "5")] "7").getD 0 +
        (1090 - 1000) / 60)) ∧
    dictFind? (recordSession [("time7", "5")] "7" 1000 1090).cache
        (last_played_time_key "7") = some (Nat.repr 1090) ∧
    (1090 - 1000 < 60 → (1090 - 1000) / 60 = 0) ∧
    (recordSession [("time7", "5")] "7" 1000 1090).reported.time_played =
      some ((get_time_played [("time7", "5")] "7").getD 0 + 1) ∧
    (recordSession [("time7", "5")] "7" 1000 1059).reported.time_played =
      some ((get_time_played [("time7", "5")] "7").getD 0 + 0) :=
  c9_record_session [("time7", "5")] "7" 1000 1090 (by decide)

/-! ## Claim C10: `get_game_time` returns no playtime -/

/-- C10: for every game id and every persisted playtime state — even
one to which `recordSession` has just persisted a positive total and a
last-played time — the host-facing `get_game_time` returns a
`GameTime` whose `time_played` and `last_played_time` are both
`none`. -/
theorem c10_get_game_time_none (cache : List (String × String))
    (gid : String) (ctx : Option Unit) (start endT : Nat) :
    get_game_time cache gid ctx =
      { game_id := gid, time_played := none, last_played_time := none } ∧
    (get_game_time (recordSession cache gid start endT).cache gid
        ctx).time_played = none ∧
    (get_game_time (recordSession cache gid start endT).cache gid
        ctx).last_played_time = none :=
  ⟨rfl, rfl, rfl⟩

/-! ## Claim C7: first-candidate-only executable resolution -/

/-- C7: for every installation row with a non-empty candidates list,
the resolved executable path is `join(basePath, candidates[0].path)` —
always the first candidate, the later candidates (`cs`) never
consulted — and an entry is produced for that title exactly when that
first-candidate path exists on the filesystem; in particular, with
`candidates = [a, b]` and only `join(basePath, b)` existing on disk,
no entry is produced.  (`hfe` records that the filesystem never
reports the empty path as existing, as `os.path.exists` does not.) -/
theorem c7_first_candidate_only (fe : String → Bool) (hfe : fe "" = false)
    (gid : Int) (base : String) (c : Candidate) (cs : List Candidate)
    (m : List (String × ItchLocalGame)) (rest : List CaveRow) :
    exe_from_json (VerdictJson.decoded ⟨base, some (c :: cs)⟩) =
      Except.ok (some (joinPath base c.path)) ∧
    processCaves fe m (⟨gid, VerdictJson.decoded ⟨base, some (c :: cs)⟩⟩ :: rest) =
      processCaves fe
        (if fe (joinPath base c.path) = true then
          dictInsert m (toString gid)
            ⟨gid, joinPath base c.path, LocalGameState.Installed⟩
        else m) rest ∧
    ((processCaves fe [] [⟨gid, VerdictJson.decoded ⟨base, some (c :: cs)⟩⟩]).1.any
      (fun p => p.1 == toString gid)) = fe (joinPath base c.path) := by
  refine ⟨rfl, ?_, ?_⟩
  · show (if joinPath base c.path = "" ∨ fe (joinPath base c.path) = false then
        processCaves fe m rest
      else processCaves fe (dictInsert m (toString gid)
        ⟨gid, joinPath base c.path, LocalGameState.Installed⟩) rest) = _
    by_cases hp : joinPath base c.path = ""
    · rw [if_pos (Or.inl hp), hp, hfe]
      simp
    · cases hex : fe (joinPath base c.path) with
      | false => rw [if_pos (Or.inr rfl)]; simp
      | true => rw [if_neg (by simp [hp, hex])]; simp
  · show ((if joinPath base c.path = "" ∨ fe (joinPath base c.path) = false then
        processCaves fe ([] : List (String × ItchLocalGame)) []
      else processCaves fe (dictInsert [] (toString gid)
        ⟨gid, joinPath base c.path, LocalGameState.Installed⟩) []).1.any
      (fun p => p.1 == toString gid)) = fe (joinPath base c.path)
    by_cases hp : joinPath base c.path = ""
    · rw [if_pos (Or.inl hp), hp, hfe]; rfl
    · cases hex : fe (joinPath base c.path) with
      | false => rw [if_pos (Or.inr rfl)]; rfl
      | true => rw [if_neg (by simp [hp, hex])]; simp [processCaves, dictInsert]

/-- Witness for C7: a concrete filesystem on which only the second
candidate exists — no entry is produced. -/
theorem c7_first_candidate_only_witness :
    exe_from_json (VerdictJson.decoded ⟨"/base", some (⟨"a"⟩ :: [⟨"b"⟩])⟩) =
      Except.ok (some (joinPath "/base" (Candidate.mk "a").path)) ∧
    processCaves onlyBExists []
        (⟨5, VerdictJson.decoded ⟨"/base", some (⟨"a"⟩ :: [⟨"b"⟩])⟩⟩ :: []) =
      processCaves onlyBExists
        (if onlyBExists (joinPath "/base" (Candidate.mk "a").path) = true then
          dictInsert [] (toString (5 : Int))
            ⟨5, joinPath "/base" (Candidate.mk "a").path, LocalGameState.Installed⟩
        else []) [] ∧
    ((processCaves onlyBExists []
        [⟨5, VerdictJson.decoded ⟨"/base", some (⟨"a"⟩ :: [⟨"b"⟩])⟩⟩]).1.any
      (fun p => p.1 == toString (5 : Int))) =
        onlyBExists (joinPath "/base" (Candidate.mk "a").path) :=
  c7_first_candidate_only onlyBExists rfl 5 "/base" ⟨"a"⟩ [⟨"b"⟩] [] []

/-! ## Claim C8: empty or null candidates list -/

/-- C8: for every installation row whose candidates value is JSON null
or the empty list, no entry is produced for that title and the
remaining rows are processed exactly as if the row were not there. -/
theorem c8_empty_candidates_skipped (fe : String → Bool)
    (m : List (String × ItchLocalGame)) (gid : Int) (base : String)
    (cands : Option (List Candidate)) (rest : List CaveRow)
    (h : cands = none ∨ cands = some []) :
    exe_from_json (VerdictJson.decoded ⟨base, cands⟩) = Except.ok none ∧
    processCaves fe m (⟨gid, VerdictJson.decoded ⟨base, cands⟩⟩ :: rest) =
      processCaves fe m rest := by
  rcases h with h | h <;> subst h <;> exact ⟨rfl, rfl⟩

/-- Witness for C8: a concrete row with a null candidates value. -/
theorem c8_empty_candidates_skipped_witness :
    exe_from_json (VerdictJson.decoded ⟨"/base", none⟩) = Except.ok none ∧
    processCaves (fun _ => true) []
        (⟨3, VerdictJson.decoded ⟨"/base", none⟩⟩ :: []) =
      processCaves (fun _ => true) [] [] :=
  c8_empty_candidates_skipped (fun _ => true) [] 3 "/base" none [] (Or.inl rfl)

/-! ## Claim C4: a malformed record aborts the whole batch -/

/-- C4 (divergence witness): with a batch holding a malformed record
followed by a perfectly processable row whose first candidate exists
on disk, `get_local_games` raises at the malformed record and the
remaining row is never processed — no entry is produced for it — while
the same remaining row on its own yields an installed entry. -/
theorem c4_malformed_aborts_batch :
    processCaves goodExeExists []
        [⟨1, VerdictJson.malformed⟩, ⟨2, verdictGood⟩] =
      ([], some MalformedRecord.mk) ∧
    processCaves goodExeExists [] [⟨2, verdictGood⟩] =
      ([("2", ⟨2, "/base/game.exe", LocalGameState.Installed⟩)], none) := by
  constructor
  · rfl
  · decide

/-! ## Scheduler lemmas -/

theorem tickOwnedStep_ok (now : Int) (s s1 : SchedState)
    (h : tickOwnedStep now s = Except.ok s1) :
    s1.runningOwned = s.runningOwned ∧ s1.runningLocal = s.runningLocal ∧
    (s1.pending = s.pending ∨
      (s.runningOwned = false ∧
        s1.pending = s.pending ++ [TaskName.ownedGames])) := by
  unfold tickOwnedStep at h
  split at h
  · cases h
    exact ⟨rfl, rfl, Or.inl rfl⟩
  · next hr =>
      have hf : s.runningOwned = false := by
        revert hr
        cases s.runningOwned <;> simp
      split at h
      · exact Except.noConfusion h
      · split at h
        · cases h
          exact ⟨rfl, rfl, Or.inr ⟨hf, rfl⟩⟩
        · cases h
          exact ⟨rfl, rfl, Or.inl rfl⟩

theorem tickLocalStep_ok (now : Int) (s s1 : SchedState)
    (h : tickLocalStep now s = Except.ok s1) :
    s1.runningOwned = s.runningOwned ∧ s1.runningLocal = s.runningLocal ∧
    (s1.pending = s.pending ∨
      (s.runningLocal = false ∧
        s1.pending = s.pending ++ [TaskName.localGames])) := by
  unfold tickLocalStep at h
  split at h
  · cases h
    exact ⟨rfl, rfl, Or.inl rfl⟩
  · next hr =>
      have hf : s.runningLocal = false := by
        revert hr
        cases s.runningLocal <;> simp
      split at h
      · exact Except.noConfusion h
      · split at h
        · cases h
          exact ⟨rfl, rfl, Or.inr ⟨hf, rfl⟩⟩
        · cases h
          exact ⟨rfl, rfl, Or.inl rfl⟩

theorem countTask_append_single_ne (l : List TaskName) (a b : TaskName)
    (h : b ≠ a) : countTask a (l ++ [b]) = countTask a l := by
  simp [countTask, List.countP_append, List.countP_cons, h]

/-! ## Claim C1: no double launch of the same task

`tick` checks `not self.__running_task[TASK]` and then calls
`self.create_task(...)`; the guard is set to `True` by the first
statement of the refresh coroutine's body, which runs only when the
event loop next gets control.  The claim's stated mechanism — the
guard is flipped to Running before the asynchronous refresh starts —
is therefore not what the code does, and a second tick arriving after
the first refresh is created but before its body has begun executing
launches the same refresh a second time. -/

/-- C1 (counterexample): from an idle state with a stale owned-games
last-check, two consecutive `tick` calls with no event-loop iteration
in between — so the first created refresh is still in flight, not even
started — create two refresh tasks for the same task name. -/
theorem c1_counterexample :
    tick 1000000 staleOwnedState =
      Except.ok { staleOwnedState with pending := [TaskName.ownedGames] } ∧
    tick 1000000 { staleOwnedState with pending := [TaskName.ownedGames] } =
      Except.ok { staleOwnedState with
        pending := [TaskName.ownedGames, TaskName.ownedGames] } ∧
    countTask TaskName.ownedGames
      [TaskName.ownedGames, TaskName.ownedGames] = 2 := by
  exact ⟨rfl, rfl, rfl⟩

/-- C1 (amended): the in-memory guard is flipped to Running by the
first statement of the refresh body, not by `tick` before scheduling;
once the first refresh for a task name has begun executing (its guard
is `true`), a subsequent tick starts no further refresh of that task —
but a tick arriving after the refresh was scheduled and before its
body has begun executing does start a duplicate. -/
theorem c1_amended_guard_blocks (now : Int) (s s' : SchedState)
    (hok : tick now s = Except.ok s') :
    (s.runningOwned = true →
      countTask TaskName.ownedGames s'.pending =
        countTask TaskName.ownedGames s.pending) ∧
    (s.runningLocal = true →
      countTask TaskName.localGames s'.pending =
        countTask TaskName.localGames s.pending) := by
  unfold tick at hok
  cases h1 : tickOwnedStep now s with
  | error e => rw [h1] at hok; exact Except.noConfusion hok
  | ok s1 =>
      rw [h1] at hok
      obtain ⟨hro1, hrl1, hp1⟩ := tickOwnedStep_ok now s s1 h1
      obtain ⟨hro2, hrl2, hp2⟩ := tickLocalStep_ok now s1 s' hok
      constructor
      · intro hro
        have hp1' : s1.pending = s.pending := by
          rcases hp1 with h | ⟨hfalse, _⟩
          · exact h
          · rw [hro] at hfalse; cases hfalse
        rcases hp2 with h | ⟨_, h⟩
        · rw [h, hp1']
        · rw [h, hp1', countTask_append_single_ne _ _ _ (by decide)]
      · intro hrl
        have hp2' : s'.pending = s1.pending := by
          rcases hp2 with h | ⟨hfalse, _⟩
          · exact h
          · rw [hrl1, hrl] at hfalse; cases hfalse
        rcases hp1 with h | ⟨_, h⟩
        · rw [hp2', h]
        · rw [hp2', h, countTask_append_single_ne _ _ _ (by decide)]

/-- Witness for C1 (amended): with both refresh bodies already
executing, a tick changes nothing. -/
theorem c1_amended_guard_blocks_witness :
    tick 10 bothRunningState = Except.ok bothRunningState ∧
    ((bothRunningState.runningOwned = true →
      countTask TaskName.ownedGames bothRunningState.pending =
        countTask TaskName.ownedGames bothRunningState.pending) ∧
    (bothRunningState.runningLocal = true →
      countTask TaskName.localGames bothRunningState.pending =
        countTask TaskName.localGames bothRunningState.pending)) :=
  ⟨rfl, c1_amended_guard_blocks 10 bothRunningState bothRunningState rfl⟩

/-! ## Claim C2: an absent last-check timestamp -/

/-- C2 (divergence witness): on a fresh state whose persisted cache
holds no last-check entry, `tick` raises `KeyError` — the dictionary
read `self.persistent_cache[GET_OWNED_GAMES_LAST_CHECK]` is not
guarded — instead of treating the task as infinitely stale: no refresh
task is created and the tick aborts. -/
theorem c2_tick_crashes_on_absent_lastCheck :
    tick 500 freshState = Except.error TickError.keyError ∧
    tickOwnedStep 500 freshState = Except.error TickError.keyError := by
  exact ⟨rfl, rfl⟩

/-! ## Claim C3: Running → Idle on completion, success or failure -/

/-- C3 (divergence witness): when the butler.db fetch fails
(`DataStoreUnavailable`), the refresh body has already set the guard
and there is no handler: the exception escapes with the guard still
`true` and the last-check entry untouched, and every later tick — here
one far in the future — skips the task forever instead of retrying it.
On success the guard is cleared and the last-check entry is stamped to
the completion time, so the transition exists only on the success
path. -/
theorem c3_failed_refresh_guard_stuck :
    (getOwnedGamesRun (Except.error DbError.dataStoreUnavailable) 1000
        idleOwnedState).1.runningOwned = true ∧
    (getOwnedGamesRun (Except.error DbError.dataStoreUnavailable) 1000
        idleOwnedState).1.lastCheckOwned = some 0 ∧
    (getOwnedGamesRun (Except.error DbError.dataStoreUnavailable) 1000
        idleOwnedState).2 = Except.error DbError.dataStoreUnavailable ∧
    tick 100000000
        (getOwnedGamesRun (Except.error DbError.dataStoreUnavailable) 1000
          idleOwnedState).1 =
      Except.ok
        (getOwnedGamesRun (Except.error DbError.dataStoreUnavailable) 1000
          idleOwnedState).1 ∧
    (getOwnedGamesRun (Except.ok []) 1000 idleOwnedState).1.runningOwned =
      false ∧
    (getOwnedGamesRun (Except.ok []) 1000 idleOwnedState).1.lastCheckOwned =
      some 1000 := by
  exact ⟨rfl, rfl, rfl, rfl, rfl, rfl⟩

/-! ## Key-count lemmas for the owned-games dictionary -/

theorem keyCount_nil {α : Type u} {β : Type v} [DecidableEq α] (k : α) :
    keyCount ([] : List (α × β)) k = 0 := rfl

theorem keyCount_insert_self {α : Type u} {β : Type v} [DecidableEq α]
    (m : List (α × β)) (k : α) (v : β) :
    keyCount (dictInsert m k v) k =
      if keyCount m k = 0 then 1 else keyCount m k := by
  induction m with
  | nil => simp [dictInsert, keyCount]
  | cons p rest ih =>
      by_cases h : p.1 = k
      · simp [dictInsert, keyCount, List.countP_cons, h]
      · simp only [dictInsert, if_neg h]
        simp only [keyCount, List.countP_cons, decide_eq_true_eq, if_neg h,
          Nat.add_zero] at ih ⊢
        exact ih

theorem keyCount_insert_ne {α : Type u} {β : Type v} [DecidableEq α]
    (m : List (α × β)) (k k' : α) (v : β) (hne : k' ≠ k) :
    keyCount (dictInsert m k v) k' = keyCount m k' := by
  have hne' : ¬ k = k' := fun h => hne h.symm
  induction m with
  | nil => simp [dictInsert, keyCount, hne']
  | cons p rest ih =>
      by_cases h : p.1 = k
      · simp [dictInsert, keyCount, List.countP_cons, h, hne']
      · simp only [dictInsert, if_neg h]
        simp only [keyCount, List.countP_cons, decide_eq_true_eq] at ih ⊢
        rw [ih]

theorem keyCount_buildOwnedGames (rows : List GameRow)
    (m : List (Int × Game)) (k : Int) :
    keyCount (buildOwnedGames m rows) k =
      if keyCount m k = 0 then
        (if rows.any (fun r => decide (r.id = k)) then 1 else 0)
      else keyCount m k := by
  induction rows generalizing m with
  | nil =>
      simp only [buildOwnedGames, List.foldl_nil, List.any_nil, if_neg Bool.false_ne_true]
      by_cases hc : keyCount m k = 0
      · rw [if_pos hc, hc]
      · rw [if_neg hc]
  | cons r rest ih =>
      have hstep : buildOwnedGames m (r :: rest) =
          buildOwnedGames (dictInsert m r.id (mkGame r)) rest := rfl
      rw [hstep, ih]
      by_cases hid : r.id = k
      · subst hid
        rw [keyCount_insert_self]
        by_cases hc : keyCount m r.id = 0
        · simp [hc, List.any_cons]
        · simp [hc, List.any_cons]
      · rw [keyCount_insert_ne m r.id k (mkGame r) (fun h => hid h.symm)]
        simp [List.any_cons, hid]

/-! ## Membership in the ownership-query result -/

theorem leftJoin_exists_mem {α : Type u} (l : List α) :
    ∃ o, o ∈ leftJoin l := by
  unfold leftJoin
  cases l with
  | nil => exact ⟨none, List.mem_singleton.mpr rfl⟩
  | cons x xs =>
      exact ⟨some x, by simp⟩

theorem leftJoin_some_mem {α : Type u} (l : List α) (x : α) (hx : x ∈ l) :
    some x ∈ leftJoin l := by
  unfold leftJoin
  cases l with
  | nil => cases hx
  | cons y ys => simpa using List.mem_map_of_mem some hx

theorem leftJoin_isSome_mem {α : Type u} (l : List α) (o : Option α)
    (ho : o ∈ leftJoin l) (hs : o.isSome = true) : ∃ x ∈ l, o = some x := by
  unfold leftJoin at ho
  cases l with
  | nil =>
      rw [List.isEmpty_nil, if_pos rfl] at ho
      rw [List.mem_singleton.mp ho] at hs
      cases hs
  | cons y ys =>
      simp only [List.isEmpty_cons, if_neg Bool.false_ne_true] at ho
      rcases List.mem_map.mp ho with ⟨x, hx, rfl⟩
      exact ⟨x, hx, rfl⟩

theorem mem_joinCombos (db : ButlerDb) (g : GameRow)
    (p : Option DownloadKeyRow × Option CollectionGameRow) :
    p ∈ joinCombos db g ↔
      p.1 ∈ leftJoin (db.download_keys.filter (fun dk => decide (dk.game_id = g.id))) ∧
      p.2 ∈ leftJoin (db.collection_games.filter (fun cg => decide (cg.game_id = g.id))) := by
  unfold joinCombos
  constructor
  · intro h
    rcases List.mem_flatMap.mp h with ⟨dk, hdk, hmap⟩
    rcases List.mem_map.mp hmap with ⟨cg, hcg, hp⟩
    rw [← hp]
    exact ⟨hdk, hcg⟩
  · intro h
    cases p with
    | mk a b =>
        exact List.mem_flatMap.mpr ⟨a, h.1, List.mem_map.mpr ⟨b, h.2, rfl⟩⟩

theorem combos_sat_iff (db : ButlerDb) (g : GameRow) :
    (∃ p ∈ joinCombos db g, whereCond g p = true) ↔ qualifies db g = true := by
  constructor
  · rintro ⟨p, hp, hw⟩
    obtain ⟨h1, h2⟩ := (mem_joinCombos db g p).mp hp
    unfold whereCond at hw
    rcases Bool.or_eq_true _ _ |>.mp hw with hcg | hdk
    · obtain ⟨hsome, hprice⟩ := Bool.and_eq_true _ _ |>.mp hcg
      obtain ⟨cg, hcgmem, _⟩ := leftJoin_isSome_mem _ _ h2 hsome
      obtain ⟨hcgin, hcgpred⟩ := List.mem_filter.mp hcgmem
      unfold qualifies
      refine Bool.or_eq_true _ _ |>.mpr (Or.inr ?_)
      refine Bool.and_eq_true _ _ |>.mpr ⟨?_, hprice⟩
      exact List.any_eq_true.mpr ⟨cg, hcgin, hcgpred⟩
    · obtain ⟨dk, hdkmem, _⟩ := leftJoin_isSome_mem _ _ h1 hdk
      obtain ⟨hdkin, hdkpred⟩ := List.mem_filter.mp hdkmem
      unfold qualifies
      exact Bool.or_eq_true _ _ |>.mpr
        (Or.inl (List.any_eq_true.mpr ⟨dk, hdkin, hdkpred⟩))
  · intro hq
    unfold qualifies at hq
    rcases Bool.or_eq_true _ _ |>.mp hq with hdk | hcg
    · obtain ⟨dk, hdkin, hdkpred⟩ := List.any_eq_true.mp hdk
      obtain ⟨o, ho⟩ := leftJoin_exists_mem
        (db.collection_games.filter (fun cg => decide (cg.game_id = g.id)))
      refine ⟨(some dk, o), ?_, ?_⟩
      · exact (mem_joinCombos db g _).mpr
          ⟨leftJoin_some_mem _ dk (List.mem_filter.mpr ⟨hdkin, hdkpred⟩), ho⟩
      · unfold whereCond
        simp
    · obtain ⟨hany, hprice⟩ := Bool.and_eq_true _ _ |>.mp hcg
      obtain ⟨cg, hcgin, hcgpred⟩ := List.any_eq_true.mp hany
      obtain ⟨o, ho⟩ := leftJoin_exists_mem
        (db.download_keys.filter (fun dk => decide (dk.game_id = g.id)))
      refine ⟨(o, some cg), ?_, ?_⟩
      · exact (mem_joinCombos db g _).mpr
          ⟨ho, leftJoin_some_mem _ cg (List.mem_filter.mpr ⟨hcgin, hcgpred⟩)⟩
      · unfold whereCond
        simp [hprice]

theorem ownedGamesQuery_any_id (db : ButlerDb) (k : Int) :
    ((ownedGamesQuery db).any (fun r => decide (r.id = k)) = true) ↔
      ∃ g ∈ db.games, g.id = k ∧ qualifies db g = true := by
  rw [List.any_eq_true]
  constructor
  · rintro ⟨r, hr, hpred⟩
    rcases List.mem_flatMap.mp hr with ⟨g, hg, hmem⟩
    rcases List.mem_map.mp hmem with ⟨p, hpf, hgr⟩
    obtain ⟨hpc, hw⟩ := List.mem_filter.mp hpf
    rw [← hgr] at hpred
    exact ⟨g, hg, by simpa using hpred,
      (combos_sat_iff db g).mp ⟨p, hpc, hw⟩⟩
  · rintro ⟨g, hg, hid, hq⟩
    rcases (combos_sat_iff db g).mpr hq with ⟨p, hpc, hw⟩
    exact ⟨g,
      List.mem_flatMap.mpr
        ⟨g, hg, List.mem_map.mpr ⟨p, List.mem_filter.mpr ⟨hpc, hw⟩, rfl⟩⟩,
      by simpa using hid⟩

theorem nodup_map_inj {α : Type u} {β : Type v} (l : List α) (f : α → β)
    (h : (l.map f).Nodup) :
    ∀ a, a ∈ l → ∀ b, b ∈ l → f a = f b → a = b := by
  induction l with
  | nil => intro a ha; cases ha
  | cons x xs ih =>
      rw [List.map_cons, List.nodup_cons] at h
      obtain ⟨hnotmem, hnd⟩ := h
      intro a ha b hb hfab
      rcases List.mem_cons.mp ha with rfl | ha'
      · rcases List.mem_cons.mp hb with rfl | hb'
        · rfl
        · exact absurd (by rw [hfab]; exact List.mem_map_of_mem f hb') hnotmem
      · rcases List.mem_cons.mp hb with rfl | hb'
        · exact absurd (by rw [← hfab]; exact List.mem_map_of_mem f ha') hnotmem
        · exact ih hnd a ha' b hb' hfab

/-! ## Claim C6: the ownership qualification predicate, one entry per id -/

/-- C6: an ownership refresh derives an owned-catalog entry for a raw
row exactly when the row has a non-null download-key association OR it
belongs to some collection AND its minimum price is exactly zero — and
the derived catalog holds exactly one entry for the row's id when it
qualifies (even when both disjuncts hold, as the witness shows), none
otherwise. -/
theorem c6_owned_entry_exactly_once (db : ButlerDb) (g : GameRow)
    (hg : g ∈ db.games)
    (hnd : (db.games.map (fun x => x.id)).Nodup) :
    keyCount (buildOwnedGames [] (ownedGamesQuery db)) g.id =
      if qualifies db g = true then 1 else 0 := by
  rw [keyCount_buildOwnedGames, keyCount_nil, if_pos rfl]
  have hany : ((ownedGamesQuery db).any (fun r => decide (r.id = g.id))) =
      qualifies db g := by
    cases hq : qualifies db g with
    | true =>
        exact (ownedGamesQuery_any_id db g.id).mpr ⟨g, hg, rfl, hq⟩
    | false =>
        cases ha : (ownedGamesQuery db).any (fun r => decide (r.id = g.id)) with
        | false => rfl
        | true =>
            obtain ⟨g', hg', hid, hq'⟩ := (ownedGamesQuery_any_id db g.id).mp ha
            have : g' = g := nodup_map_inj db.games (fun x => x.id) hnd g' hg' g hg hid
            rw [this] at hq'
            rw [hq'] at hq
            cases hq
  rw [hany]

/-- Witness for C6: a game satisfying both disjuncts (a download key
and a free collection membership) appears in the derived catalog
exactly once. -/
theorem c6_owned_entry_exactly_once_witness :
    freeGameRow ∈ dbBoth.games ∧
    (dbBoth.games.map (fun x => x.id)).Nodup ∧
    keyCount (buildOwnedGames [] (ownedGamesQuery dbBoth)) freeGameRow.id =
      if qualifies dbBoth freeGameRow = true then 1 else 0 :=
  ⟨by decide, by decide,
    c6_owned_entry_exactly_once dbBoth freeGameRow (by decide) (by decide)⟩

end ItchSpec
